import Mathlib

/-!
Shallow embedding of `src/flyer_parser.py` (class `FlyerParser`): the
date-range parser inside `parse_flyer`, the per-flyer record builder
`parse_flyer`, the per-shop collector `parse_category_shop`, and the
pipeline `parse_flyers_category` (driver lifecycle included), together
with theorems settling the frozen claims about them.

Python string/`datetime` semantics are modelled faithfully:
`str.split(" ")` keeps empty pieces, `str.split(" - ")` splits on leftmost
non-overlapping occurrences, `str.strip` trims ASCII whitespace,
`datetime.strptime(s, "%d.%m.%Y")` matches the CPython `_strptime` regexes
(`%d` = `3[01]|[12]\d|0[1-9]|[1-9]| [1-9]`, `%m` = `1[0-2]|0[1-9]|[1-9]`,
`%Y` = exactly four digits) against the whole string and then validates the
calendar date via the `datetime` constructor (year ≥ 1, day ≤ days in
month), and `strftime("%Y-%m-%d")` zero-pads day and month to width 2 but
prints the year as a plain decimal (glibc `%Y` does not pad years below
1000: `datetime(24,6,1).strftime("%Y-%m-%d") = "24-06-01"`).
-/

/-! ## Python string primitives -/

/-- Python `str.strip` whitespace set (ASCII part; the flyer texts are ASCII
apart from umlauts, which are not whitespace). -/
def isPySpace (c : Char) : Bool :=
  c = ' ' || c = '\t' || c = '\n' || c = '\x0d' || c = '\x0b' || c = '\x0c'

/-- `str.strip()` on a character list: drop leading and trailing whitespace. -/
def stripChars (l : List Char) : List Char :=
  ((l.dropWhile isPySpace).reverse.dropWhile isPySpace).reverse

/-- Python `s.strip()`. -/
def pyStrip (s : String) : String := ⟨stripChars s.data⟩

/-- Python `s.split(" ")`: split on every single space, keeping empty pieces;
`"".split(" ") = [""]`. Accumulator holds the current piece reversed. -/
def splitSpaceAux : List Char → List Char → List (List Char)
  | [], acc => [acc.reverse]
  | c :: rest, acc =>
    if c = ' ' then acc.reverse :: splitSpaceAux rest []
    else splitSpaceAux rest (c :: acc)

/-- Python `s.split(" ")` as a list of strings. -/
def pySplitSpace (s : String) : List String :=
  (splitSpaceAux s.data []).map fun l => ⟨l⟩

/-- Python `s.split(" - ")`: split on leftmost non-overlapping occurrences of
the three-character separator, keeping empty pieces. -/
def splitDashAux : List Char → List Char → List (List Char)
  | [], acc => [acc.reverse]
  | [a], acc => [(a :: acc).reverse]
  | [a, b], acc => splitDashAux [b] (a :: acc)
  | a :: b :: c :: rest2, acc =>
    if a = ' ' && b = '-' && c = ' ' then acc.reverse :: splitDashAux rest2 []
    else splitDashAux (b :: c :: rest2) (a :: acc)

/-- Python `s.split(" - ")` as a list of strings. -/
def pySplitDash (s : String) : List String :=
  (splitDashAux s.data []).map fun l => ⟨l⟩

/-- Does the character list start with the three letters of `"von"`? -/
def startsWithVon (l : List Char) : Bool :=
  match l with
  | a :: b :: c :: _ => a = 'v' && b = 'o' && c = 'n'
  | _ => false

/-- Python `"von" in s`: substring containment. -/
def containsVon : List Char → Bool
  | [] => false
  | c :: rest => startsWithVon (c :: rest) || containsVon rest

/-- Python truthiness of `a or b` for `str | None` values (`None` ↦ `none`,
a string `s` ↦ `some s`): `a` when `a` is a non-empty string, else `b`. -/
def pyOr (a b : Option String) : Option String :=
  match a with
  | some s => if s = "" then b else some s
  | none => b

/-! ## `datetime.strptime(_, "%d.%m.%Y")` and `strftime("%Y-%m-%d")` -/

/-- A parsed calendar date. -/
structure Date where
  year : Nat
  month : Nat
  day : Nat
deriving DecidableEq, Repr

def digitVal (c : Char) : Nat := c.toNat - 48

/-- CPython `_strptime` day directive `%d`, matched against a whole token:
`3[01] | [12]\d | 0[1-9] | [1-9] | ␣[1-9]`. -/
def matchDay : List Char → Option Nat
  | [c] => if '1' ≤ c && c ≤ '9' then some (digitVal c) else none
  | [a, b] =>
    if a = '3' && (b = '0' || b = '1') then some (30 + digitVal b)
    else if (a = '1' || a = '2') && b.isDigit then
      some (10 * digitVal a + digitVal b)
    else if a = '0' && ('1' ≤ b && b ≤ '9') then some (digitVal b)
    else if a = ' ' && ('1' ≤ b && b ≤ '9') then some (digitVal b)
    else none
  | _ => none

/-- CPython `_strptime` month directive `%m`, matched against a whole token:
`1[0-2] | 0[1-9] | [1-9]`. -/
def matchMonth : List Char → Option Nat
  | [c] => if '1' ≤ c && c ≤ '9' then some (digitVal c) else none
  | [a, b] =>
    if a = '1' && ('0' ≤ b && b ≤ '2') then some (10 + digitVal b)
    else if a = '0' && ('1' ≤ b && b ≤ '9') then some (digitVal b)
    else none
  | _ => none

/-- CPython `_strptime` year directive `%Y`: exactly four digits. -/
def matchYear : List Char → Option Nat
  | [a, b, c, d] =>
    if a.isDigit && b.isDigit && c.isDigit && d.isDigit then
      some (1000 * digitVal a + 100 * digitVal b + 10 * digitVal c + digitVal d)
    else none
  | _ => none

/-- Python split on a single character (used for the two literal `.` of the
format and for re-checking ISO strings on `-`). -/
def splitCharAux (sep : Char) : List Char → List Char → List (List Char)
  | [], acc => [acc.reverse]
  | c :: rest, acc =>
    if c = sep then acc.reverse :: splitCharAux sep rest []
    else splitCharAux sep rest (c :: acc)

/-- Gregorian leap year, as `datetime` uses. -/
def isLeap (y : Nat) : Bool := (y % 4 = 0 && y % 100 ≠ 0) || y % 400 = 0

/-- Days in a month, as the `datetime` constructor validates. -/
def daysInMonth (y m : Nat) : Nat :=
  if m = 2 then (if isLeap y then 29 else 28)
  else if m = 4 || m = 6 || m = 9 || m = 11 then 30
  else 31

/-- `datetime.strptime(s, "%d.%m.%Y")`: the format's regex must match the
whole string — equivalently the string splits on `.` into exactly three
tokens matching `%d`, `%m`, `%Y` — and the `datetime(year, month, day)`
constructor must accept the values (year ≥ 1; day within the month; the
regexes already force 1 ≤ day ≤ 31 and 1 ≤ month ≤ 12). -/
def strptime_dmY (s : String) : Option Date :=
  match splitCharAux '.' s.data [] with
  | [dp, mp, yp] =>
    match matchDay dp, matchMonth mp, matchYear yp with
    | some d, some m, some y =>
      if 1 ≤ y && d ≤ daysInMonth y m then some ⟨y, m, d⟩ else none
    | _, _, _ => none
  | _ => none

def digitChar (n : Nat) : Char := Char.ofNat (48 + n)

/-- Decimal rendering of a natural number below 10000 (the only years
`strptime` can produce); no zero padding, as glibc `%Y` prints. -/
def natStr (n : Nat) : String :=
  if n < 10 then ⟨[digitChar n]⟩
  else if n < 100 then ⟨[digitChar (n / 10), digitChar (n % 10)]⟩
  else if n < 1000 then
    ⟨[digitChar (n / 100), digitChar (n / 10 % 10), digitChar (n % 10)]⟩
  else if n < 10000 then
    ⟨[digitChar (n / 1000), digitChar (n / 100 % 10), digitChar (n / 10 % 10),
      digitChar (n % 10)]⟩
  else ⟨[]⟩

/-- Two-digit zero-padded rendering, as `%m` and `%d` print. -/
def pad2 (n : Nat) : String :=
  if n < 10 then ⟨['0', digitChar n]⟩ else natStr n

/-- `dt.strftime("%Y-%m-%d")`: unpadded year, zero-padded month and day. -/
def strftimeISO (dt : Date) : String :=
  natStr dt.year ++ "-" ++ pad2 dt.month ++ "-" ++ pad2 dt.day

/-! ## The date-range parse inside `parse_flyer` (lines 140–152) -/

/-- The date-range branch of `FlyerParser.parse_flyer`: if `"von"` occurs in
the validity text, split on single spaces and `strptime` the token at index
2 (`dates[2]`), `valid_to = ""`; otherwise split on `" - "` and `strptime`
the tokens at indices 0 and 1. `none` models the raised
`IndexError`/`ValueError` (caught by `parse_flyer`, dropping the flyer). -/
def parseDateRange (s : String) : Option (String × String) :=
  if containsVon s.data then
    match (pySplitSpace s).get? 2 with
    | none => none
    | some t =>
      match strptime_dmY t with
      | none => none
      | some d => some (strftimeISO d, "")
  else
    match (pySplitDash s).get? 0 with
    | none => none
    | some t0 =>
      match strptime_dmY t0 with
      | none => none
      | some d0 =>
        match (pySplitDash s).get? 1 with
        | none => none
        | some t1 =>
          match strptime_dmY t1 with
          | none => none
          | some d1 => some (strftimeISO d0, strftimeISO d1)

/-! ## Flyer elements and records -/

/-- The `img` node of a flyer element; `get_attribute` returns `None` for an
absent attribute (modelled `none`) and the string value otherwise. -/
structure ImgElem where
  src : Option String
  dataSrc : Option String
deriving DecidableEq, Repr

/-- One rendered flyer element as `parse_flyer` reads it: the `textContent`
of the first `h2` descendant, the first `img` descendant, and the
`textContent` of the first `span` descendant; `none` models the
`NoSuchElementException` raised by `find_element` when absent. -/
structure FlyerElem where
  h2 : Option String
  img : Option ImgElem
  span : Option String
deriving DecidableEq, Repr

/-- One entry of `parsed_flyers` (the dictionary built at lines 154–163).
`thumbnail` is `Option String` because `src or data-src` can be `None`. -/
structure FlyerRecord where
  title : String
  thumbnail : Option String
  shop_name : String
  valid_from : String
  valid_to : String
  parsed_time : String
deriving DecidableEq, Repr

/-- The `try` body of `FlyerParser.parse_flyer` for one element: read and
strip the title, take `src or data-src` from the image, read and strip the
validity text, run the date-range branch, and assemble the dictionary with
`parsed_time = now`. `none` models any raised exception (missing
sub-element, `IndexError`, `ValueError`), which the `except` clause turns
into a log-and-skip. -/
def buildFlyerRecord (flyer : FlyerElem) (shop_name now : String) :
    Option FlyerRecord :=
  match flyer.h2 with
  | none => none
  | some t =>
    match flyer.img with
    | none => none
    | some img =>
      match flyer.span with
      | none => none
      | some sp =>
        match parseDateRange (pyStrip sp) with
        | none => none
        | some (vf, vt) =>
          some ⟨pyStrip t, pyOr img.src img.dataSrc, shop_name, vf, vt, now⟩

/-- Log and driver-lifecycle events emitted during a run. -/
inductive Event where
  | acquireDriver
  | releaseDriver
  | logInfo (msg : String)
  | logWarning (msg : String)
  | logError (msg : String)
deriving DecidableEq, Repr

/-- `FlyerParser.parse_flyer`: append the built record to `parsed_flyers`,
or log an error naming the shop and leave the list unchanged. -/
def parse_flyer (flyer : FlyerElem) (shop_name now : String)
    (acc : List FlyerRecord) : List FlyerRecord × List Event :=
  match buildFlyerRecord flyer shop_name now with
  | some r => (acc ++ [r], [])
  | none => (acc, [.logError ("Failed to parse flyer in " ++ shop_name)])

/-- What the rendered shop page yields to `parse_category_shop`'s wait:
a `TimeoutException`, some other exception from `driver.get`/the wait, or
the located flyer elements in DOM order. -/
inductive ShopPage where
  | timeout
  | error
  | flyers (elems : List FlyerElem)

/-- Folding `parse_flyer` over the located elements (the `for` loop at
lines 117–118), threading `parsed_flyers` and collecting log events. -/
def parseFlyerLoop (elems : List FlyerElem) (shop_name now : String)
    (acc : List FlyerRecord) : List FlyerRecord × List Event :=
  match elems with
  | [] => (acc, [])
  | e :: rest =>
    let r1 := parse_flyer e shop_name now acc
    let r2 := parseFlyerLoop rest shop_name now r1.1
    (r2.1, r1.2 ++ r2.2)

/-- `FlyerParser.parse_category_shop`: on timeout, log a warning naming the
shop and `return`; on another exception during the wait, log the error and
then hit the undefined `flyers` in the `for` header — the `NameError`
propagates to the caller, modelled by the first component `none`; otherwise
run `parse_flyer` on every element and log the completion info line. -/
def parse_category_shop (page : ShopPage) (shop_name now : String)
    (acc : List FlyerRecord) :
    Option (List FlyerRecord) × List Event :=
  match page with
  | .timeout => (some acc, [.logWarning ("Flyers not found for shop " ++ shop_name)])
  | .error => (none, [.logError "Error occured"])
  | .flyers elems =>
    let r := parseFlyerLoop elems shop_name now acc
    (some r.1, r.2 ++ [.logInfo ("Parsing " ++ shop_name ++ " flyers done")])

/-- One anchor of the category dropdown: its `href` link target and its
`get_text()` visible text (passed to `parse_category_shop` verbatim). -/
structure AnchorElem where
  href : String
  text : String
deriving DecidableEq, Repr

/-- The statically fetched category page, as lines 76–79 inspect it:
`select_one` may find no matching anchor, the anchor may have no following
sibling (both raise inside the generic `except`), or the dropdown holds a
list of `li > a` anchors. -/
inductive CategoryDoc where
  | noAnchor
  | anchorNoSibling
  | dropdown (links : List AnchorElem)

/-- The result of `requests.get` on the category page. -/
inductive FetchResult where
  | requestError
  | ok (doc : CategoryDoc)

/-- One pipeline run's environment: the fetched category page and, per shop
path, what the rendered shop page yields. -/
structure PipelineInput where
  fetch : FetchResult
  render : String → ShopPage

/-- The `for link in category_dropdown_links` loop (lines 81–82): process
shops sequentially; a propagated exception (first component `none`) aborts
the remaining iterations but keeps the records already appended. -/
def shopLoop (render : String → ShopPage) (links : List AnchorElem)
    (now : String) (acc : List FlyerRecord) :
    Option Unit × List FlyerRecord × List Event :=
  match links with
  | [] => (some (), acc, [])
  | a :: rest =>
    let r := parse_category_shop (render a.href) a.text now acc
    match r.1 with
    | none => (none, acc, r.2)
    | some acc1 =>
      let r2 := shopLoop render rest now acc1
      (r2.1, r2.2.1, r.2 ++ r2.2.2)

/-- `FlyerParser.parse_flyers_category`: fetch the category page, locate the
dropdown, loop over the shops; `requests.RequestException` and any other
exception are logged; the `finally` block always quits the driver and logs
the completion line. Returns the final `parsed_flyers` and the event
trace. -/
def parse_flyers_category (inp : PipelineInput) (now : String) :
    List FlyerRecord × List Event :=
  match inp.fetch with
  | .requestError =>
    ([], [.logError "Parsing failed: unable to get webpage",
          .releaseDriver, .logInfo "Parsing completed"])
  | .ok doc =>
    let ev0 : List Event := [.logInfo "Website has been successfully parsed"]
    match doc with
    | .noAnchor =>
      ([], ev0 ++ [.logError "Error occured",
                   .releaseDriver, .logInfo "Parsing completed"])
    | .anchorNoSibling =>
      ([], ev0 ++ [.logError "Error occured",
                   .releaseDriver, .logInfo "Parsing completed"])
    | .dropdown links =>
      let r := shopLoop inp.render links now []
      match r.1 with
      | none =>
        (r.2.1, ev0 ++ r.2.2 ++ [.logError "Error occured",
                                 .releaseDriver, .logInfo "Parsing completed"])
      | some _ =>
        (r.2.1, ev0 ++ r.2.2 ++ [.releaseDriver, .logInfo "Parsing completed"])

/-- One pipeline run as `__main__` performs it: `FlyerParser(BASE_URL)`
acquires the Chrome driver in `__init__`, then `parse_flyers_category`
runs, whose `finally` releases it. -/
def pipelineRun (inp : PipelineInput) (now : String) :
    List FlyerRecord × List Event :=
  let (recs, ev) := parse_flyers_category inp now
  (recs, Event.acquireDriver :: ev)

/-! ## Auxiliary definitions for the claims -/

/-- Decimal value of a digit-character list (most significant first). -/
def listVal (l : List Char) : Nat :=
  l.foldl (fun a c => 10 * a + digitVal c) 0

/-- Syntactic validity of an ISO `YYYY-MM-DD` calendar date: exactly three
hyphen-separated groups of 4, 2 and 2 decimal digits whose values pass the
same calendar check the `datetime` constructor applies. -/
def isValidISODate (s : String) : Bool :=
  match splitCharAux '-' s.data [] with
  | [y, m, d] =>
    y.length = 4 && y.all Char.isDigit && m.length = 2 && m.all Char.isDigit
      && d.length = 2 && d.all Char.isDigit
      && 1 ≤ listVal y && 1 ≤ listVal m && listVal m ≤ 12 && 1 ≤ listVal d
      && listVal d ≤ daysInMonth (listVal y) (listVal m)
  | _ => false

/-- The spec's `Shop` datum: a `(path, name)` pair, as the discoverer is
specified to produce it (path = link target, name = visible text). -/
def discoveredShops (links : List AnchorElem) : List (String × String) :=
  links.map fun a => (a.href, a.text)

/-- The shop loop re-expressed over `(path, name)` pairs instead of anchor
elements, used to state what data the pipeline extracts from each anchor. -/
def shopLoopPairs (render : String → ShopPage) (shops : List (String × String))
    (now : String) (acc : List FlyerRecord) :
    Option Unit × List FlyerRecord × List Event :=
  match shops with
  | [] => (some (), acc, [])
  | (path, name) :: rest =>
    let r := parse_category_shop (render path) name now acc
    match r.1 with
    | none => (none, acc, r.2)
    | some acc1 =>
      let r2 := shopLoopPairs render rest now acc1
      (r2.1, r2.2.1, r.2 ++ r2.2.2)

/-- The value range `strptime` guarantees for a parsed date (regex plus
`datetime` constructor validation). -/
def dateInRange (dt : Date) : Prop :=
  1 ≤ dt.year ∧ dt.year ≤ 9999 ∧ 1 ≤ dt.month ∧ dt.month ≤ 12 ∧
    1 ≤ dt.day ∧ dt.day ≤ daysInMonth dt.year dt.month

/-! ## Lemmas about the string primitives -/

theorem splitCharAux_no_sep (sep : Char) (l acc : List Char)
    (h : ∀ c ∈ l, ¬c = sep) :
    splitCharAux sep l acc = [acc.reverse ++ l] := by
  induction l generalizing acc with
  | nil => simp [splitCharAux]
  | cons c rest ih =>
    have hc : ¬c = sep := h c (by simp)
    simp only [splitCharAux, if_neg hc, List.append_eq]
    rw [ih _ (fun x hx => h x (by simp [hx]))]
    simp

theorem splitCharAux_append (sep : Char) (l1 l2 acc : List Char)
    (h : ∀ c ∈ l1, ¬c = sep) :
    splitCharAux sep (l1 ++ sep :: l2) acc =
      (acc.reverse ++ l1) :: splitCharAux sep l2 [] := by
  induction l1 generalizing acc with
  | nil => simp [splitCharAux]
  | cons c rest ih =>
    have hc : ¬c = sep := h c (by simp)
    simp only [List.cons_append, splitCharAux, if_neg hc, List.append_eq]
    rw [ih _ (fun x hx => h x (by simp [hx]))]
    simp

theorem splitDashAux_no_sep (l : List Char) (acc : List Char)
    (h : ∀ c ∈ l, ¬c = '-') :
    splitDashAux l acc = [acc.reverse ++ l] := by
  induction l generalizing acc with
  | nil => simp [splitDashAux]
  | cons a rest ih =>
    rcases rest with _ | ⟨b, rest'⟩
    · simp [splitDashAux]
    · have hb : ¬b = '-' := h b (by simp)
      rcases rest' with _ | ⟨c, rest''⟩
      · simp [splitDashAux]
      · rw [splitDashAux.eq_4, if_neg (by simp [decide_eq_false hb])]
        rw [ih _ (fun x hx => h x (by simp at hx ⊢; tauto))]
        simp

theorem splitDashAux_append (l1 l2 acc : List Char)
    (h : ∀ c ∈ l1, ¬c = '-') :
    splitDashAux (l1 ++ ' ' :: '-' :: ' ' :: l2) acc =
      (acc.reverse ++ l1) :: splitDashAux l2 [] := by
  induction l1 generalizing acc with
  | nil =>
    rw [List.nil_append, splitDashAux.eq_4, if_pos (by simp)]
    simp
  | cons a rest ih =>
    rcases rest with _ | ⟨b, rest'⟩
    · rw [List.cons_append, List.nil_append, splitDashAux.eq_4,
          if_neg (by simp)]
      rw [splitDashAux.eq_4, if_pos (by simp)]
      simp
    · have hb : ¬b = '-' := h b (by simp)
      rcases rest' with _ | ⟨c, rest''⟩
      · rw [List.cons_append, List.cons_append, List.nil_append,
            splitDashAux.eq_4, if_neg (by simp [decide_eq_false hb])]
        have h2 := ih (a :: acc) (fun x hx => h x (by simp at hx ⊢; tauto))
        rw [List.cons_append, List.nil_append] at h2
        rw [h2]
        simp
      · rw [List.cons_append, List.cons_append, List.cons_append,
            splitDashAux.eq_4, if_neg (by simp [decide_eq_false hb])]
        have h2 := ih (a :: acc) (fun x hx => h x (by simp at hx ⊢; tauto))
        rw [List.cons_append, List.cons_append] at h2
        rw [h2]
        simp

theorem containsVon_eq_false (l : List Char) (h : ∀ c ∈ l, ¬c = 'v') :
    containsVon l = false := by
  induction l with
  | nil => rfl
  | cons c rest ih =>
    have hc : ¬c = 'v' := h c (by simp)
    have h1 : startsWithVon (c :: rest) = false := by
      rcases rest with _ | ⟨b, _ | ⟨d, r⟩⟩ <;>
        simp [startsWithVon, decide_eq_false hc]
    simp [containsVon, h1, ih (fun x hx => h x (by simp [hx]))]

/-! ## Digit-rendering lemmas -/

theorem digitChar_facts : ∀ n, n < 10 → (digitChar n).isDigit = true ∧
    ¬digitChar n = '.' ∧ ¬digitChar n = '-' ∧ ¬digitChar n = 'v' ∧
    digitVal (digitChar n) = n := by decide

theorem matchDay_digits : ∀ va, va < 10 → ∀ vb, vb < 10 →
    matchDay [digitChar va, digitChar vb] =
      if 1 ≤ 10 * va + vb ∧ 10 * va + vb ≤ 31 then some (10 * va + vb)
      else none := by decide

theorem matchMonth_digits : ∀ va, va < 10 → ∀ vb, vb < 10 →
    matchMonth [digitChar va, digitChar vb] =
      if 1 ≤ 10 * va + vb ∧ 10 * va + vb ≤ 12 then some (10 * va + vb)
      else none := by decide

theorem matchYear_digits (v3 v2 v1 v0 : Nat) (h3 : v3 < 10) (h2 : v2 < 10)
    (h1 : v1 < 10) (h0 : v0 < 10) :
    matchYear [digitChar v3, digitChar v2, digitChar v1, digitChar v0] =
      some (1000 * v3 + 100 * v2 + 10 * v1 + v0) := by
  have f3 := digitChar_facts v3 h3
  have f2 := digitChar_facts v2 h2
  have f1 := digitChar_facts v1 h1
  have f0 := digitChar_facts v0 h0
  simp [matchYear, f3.1, f2.1, f1.1, f0.1, f3.2.2.2.2, f2.2.2.2.2,
    f1.2.2.2.2, f0.2.2.2.2]

theorem pad2_digits (va vb : Nat) (ha : va < 10) (hb : vb < 10) :
    pad2 (10 * va + vb) = ⟨[digitChar va, digitChar vb]⟩ := by
  by_cases h : va = 0
  · subst h
    have : 10 * 0 + vb < 10 := by omega
    simp only [pad2, if_pos this]
    have : (10 : Nat) * 0 + vb = vb := by omega
    rw [this]
    rfl
  · have h1 : ¬10 * va + vb < 10 := by omega
    have h2 : 10 * va + vb < 100 := by omega
    simp only [pad2, natStr, if_neg h1, if_pos h2]
    have e1 : (10 * va + vb) / 10 = va := by omega
    have e2 : (10 * va + vb) % 10 = vb := by omega
    rw [e1, e2]

theorem natStr_digits4 (v3 v2 v1 v0 : Nat) (h3 : 1 ≤ v3) (h3' : v3 < 10)
    (h2 : v2 < 10) (h1 : v1 < 10) (h0 : v0 < 10) :
    natStr (1000 * v3 + 100 * v2 + 10 * v1 + v0) =
      ⟨[digitChar v3, digitChar v2, digitChar v1, digitChar v0]⟩ := by
  have ha : ¬1000 * v3 + 100 * v2 + 10 * v1 + v0 < 10 := by omega
  have hb : ¬1000 * v3 + 100 * v2 + 10 * v1 + v0 < 100 := by omega
  have hc : ¬1000 * v3 + 100 * v2 + 10 * v1 + v0 < 1000 := by omega
  have hd : 1000 * v3 + 100 * v2 + 10 * v1 + v0 < 10000 := by omega
  simp only [natStr, if_neg ha, if_neg hb, if_neg hc, if_pos hd]
  have e3 : (1000 * v3 + 100 * v2 + 10 * v1 + v0) / 1000 = v3 := by omega
  have e2 : (1000 * v3 + 100 * v2 + 10 * v1 + v0) / 100 % 10 = v2 := by omega
  have e1 : (1000 * v3 + 100 * v2 + 10 * v1 + v0) / 10 % 10 = v1 := by omega
  have e0 : (1000 * v3 + 100 * v2 + 10 * v1 + v0) % 10 = v0 := by omega
  rw [e3, e2, e1, e0]

theorem pad2_mem (n : Nat) (h : n < 100) :
    ∀ c ∈ (pad2 n).data, ∃ k, k < 10 ∧ c = digitChar k := by
  have e : n = 10 * (n / 10) + n % 10 := by omega
  rw [e, pad2_digits _ _ (by omega) (by omega)]
  intro c hc
  simp only [List.mem_cons, List.not_mem_nil, or_false] at hc
  rcases hc with rfl | rfl
  · exact ⟨n / 10, by omega, rfl⟩
  · exact ⟨n % 10, by omega, rfl⟩

theorem natStr4_mem (n : Nat) (h : 1000 ≤ n) (h' : n ≤ 9999) :
    ∀ c ∈ (natStr n).data, ∃ k, k < 10 ∧ c = digitChar k := by
  have e : n = 1000 * (n / 1000) + 100 * (n / 100 % 10) + 10 * (n / 10 % 10)
      + n % 10 := by omega
  rw [e, natStr_digits4 _ _ _ _ (by omega) (by omega) (by omega) (by omega)
    (by omega)]
  intro c hc
  simp only [List.mem_cons, List.not_mem_nil, or_false] at hc
  rcases hc with rfl | rfl | rfl | rfl
  · exact ⟨n / 1000, by omega, rfl⟩
  · exact ⟨n / 100 % 10, by omega, rfl⟩
  · exact ⟨n / 10 % 10, by omega, rfl⟩
  · exact ⟨n % 10, by omega, rfl⟩

theorem daysInMonth_le (y m : Nat) : daysInMonth y m ≤ 31 := by
  unfold daysInMonth
  split
  · split <;> omega
  · split <;> omega

theorem strptime_constructed (D M Y : Nat) (hD : 1 ≤ D)
    (hDm : D ≤ daysInMonth Y M) (hM : 1 ≤ M) (hM' : M ≤ 12)
    (hY : 1000 ≤ Y) (hY' : Y ≤ 9999) :
    strptime_dmY (pad2 D ++ "." ++ pad2 M ++ "." ++ natStr Y) =
      some ⟨Y, M, D⟩ := by
  have hD31 : D ≤ 31 := le_trans hDm (daysInMonth_le Y M)
  have hpD : pad2 D = ⟨[digitChar (D / 10), digitChar (D % 10)]⟩ := by
    conv_lhs => rw [show D = 10 * (D / 10) + D % 10 from by omega]
    exact pad2_digits _ _ (by omega) (by omega)
  have hpM : pad2 M = ⟨[digitChar (M / 10), digitChar (M % 10)]⟩ := by
    conv_lhs => rw [show M = 10 * (M / 10) + M % 10 from by omega]
    exact pad2_digits _ _ (by omega) (by omega)
  have hpY : natStr Y = ⟨[digitChar (Y / 1000), digitChar (Y / 100 % 10),
      digitChar (Y / 10 % 10), digitChar (Y % 10)]⟩ := by
    conv_lhs => rw [show Y = 1000 * (Y / 1000) + 100 * (Y / 100 % 10)
      + 10 * (Y / 10 % 10) + Y % 10 from by omega]
    exact natStr_digits4 _ _ _ _ (by omega) (by omega) (by omega) (by omega)
      (by omega)
  have hnd : ∀ k : Nat, k < 10 → ¬digitChar k = '.' :=
    fun k hk => (digitChar_facts k hk).2.1
  have hdata : (pad2 D ++ "." ++ pad2 M ++ "." ++ natStr Y).data =
      [digitChar (D / 10), digitChar (D % 10)] ++ '.' ::
        ([digitChar (M / 10), digitChar (M % 10)] ++ '.' ::
          [digitChar (Y / 1000), digitChar (Y / 100 % 10),
           digitChar (Y / 10 % 10), digitChar (Y % 10)]) := by
    rw [hpD, hpM, hpY]
    simp [String.data_append]
  have hsplit : splitCharAux '.'
      (pad2 D ++ "." ++ pad2 M ++ "." ++ natStr Y).data [] =
      [[digitChar (D / 10), digitChar (D % 10)],
       [digitChar (M / 10), digitChar (M % 10)],
       [digitChar (Y / 1000), digitChar (Y / 100 % 10),
        digitChar (Y / 10 % 10), digitChar (Y % 10)]] := by
    rw [hdata]
    rw [splitCharAux_append '.' _ _ []
      (by intro c hc; simp only [List.mem_cons, List.not_mem_nil, or_false]
          at hc
          rcases hc with rfl | rfl
          · exact hnd _ (by omega)
          · exact hnd _ (by omega))]
    rw [splitCharAux_append '.' _ _ []
      (by intro c hc; simp only [List.mem_cons, List.not_mem_nil, or_false]
          at hc
          rcases hc with rfl | rfl
          · exact hnd _ (by omega)
          · exact hnd _ (by omega))]
    rw [splitCharAux_no_sep '.' _ []
      (by intro c hc; simp only [List.mem_cons, List.not_mem_nil, or_false]
          at hc
          rcases hc with rfl | rfl | rfl | rfl
          · exact hnd _ (by omega)
          · exact hnd _ (by omega)
          · exact hnd _ (by omega)
          · exact hnd _ (by omega))]
    simp
  have c1 : 1 ≤ Y := by omega
  simp only [strptime_dmY, hsplit]
  rw [matchDay_digits (D / 10) (by omega) (D % 10) (by omega),
      matchMonth_digits (M / 10) (by omega) (M % 10) (by omega),
      matchYear_digits (Y / 1000) (Y / 100 % 10) (Y / 10 % 10) (Y % 10)
        (by omega) (by omega) (by omega) (by omega)]
  rw [if_pos (by omega), if_pos (by omega)]
  rw [show 10 * (D / 10) + D % 10 = D from by omega,
      show 10 * (M / 10) + M % 10 = M from by omega,
      show 1000 * (Y / 1000) + 100 * (Y / 100 % 10) + 10 * (Y / 10 % 10)
        + Y % 10 = Y from by omega]
  simp [c1, hDm]

theorem dot_data : (".").data = ['.'] := rfl

theorem sepDash_data : (" - ").data = [' ', '-', ' '] := rfl

theorem token_chars (D M Y : Nat) (hD : D < 100) (hM : M < 100)
    (hY : 1000 ≤ Y) (hY' : Y ≤ 9999) :
    ∀ c ∈ (pad2 D ++ "." ++ pad2 M ++ "." ++ natStr Y).data,
      (∃ k, k < 10 ∧ c = digitChar k) ∨ c = '.' := by
  intro c hc
  rw [String.data_append, String.data_append, String.data_append,
      String.data_append, dot_data] at hc
  simp only [List.mem_append, List.mem_cons, List.not_mem_nil, or_false]
    at hc
  rcases hc with (((h1 | h1) | h1) | h1) | h1
  · exact Or.inl (pad2_mem D hD c h1)
  · exact Or.inr h1
  · exact Or.inl (pad2_mem M hM c h1)
  · exact Or.inr h1
  · exact Or.inl (natStr4_mem Y hY hY' c h1)

/-- C1 (amended): for a validity text that contains `"von"` and whose
whitespace-split token at index 2 is a valid `DD.MM.YYYY` date, the
date-range parse yields `valid_from` = that date rendered by the code's
`strftime("%Y-%m-%d")` and `valid_to` = the empty string. -/
theorem c1_von_amended (s t : String) (d : Date)
    (h1 : containsVon s.data = true)
    (h2 : (pySplitSpace s).get? 2 = some t)
    (h3 : strptime_dmY t = some d) :
    parseDateRange s = some (strftimeISO d, "") := by
  simp only [parseDateRange, h1, if_true, h2, h3]

/-- Witness for `c1_von_amended` at the concrete text
`"Gültig von 01.06.2024"`. -/
theorem c1_von_witness :
    parseDateRange "Gültig von 01.06.2024" = some ("2024-06-01", "") :=
  c1_von_amended "Gültig von 01.06.2024" "01.06.2024" ⟨2024, 6, 1⟩
    (by decide) (by decide) (by decide)

/-- C1 (counterexample): the text `"von 01.06.2024"` contains the marker
`"von"` immediately followed by one valid `DD.MM.YYYY` token, yet the
date-range parse raises (`dates[2]` is out of range for the two-token
split) instead of yielding `("2024-06-01", "")`. -/
theorem c1_von_counterexample :
    containsVon ("von 01.06.2024").data = true ∧
    pySplitSpace "von 01.06.2024" = ["von", "01.06.2024"] ∧
    strptime_dmY "01.06.2024" = some ⟨2024, 6, 1⟩ ∧
    parseDateRange "von 01.06.2024" = none := by decide

/-- C2 (amended): for a double-bound text `"D1.M1.Y1 - D2.M2.Y2"` built of
two valid dates with two-digit zero-padded day and month and four-digit
years (1000–9999), the date-range parse yields exactly
`("Y1-M1-D1", "Y2-M2-D2")` with the same digit groups. -/
theorem c2_double_bound_amended (D1 M1 Y1 D2 M2 Y2 : Nat)
    (hD1 : 1 ≤ D1) (hD1m : D1 ≤ daysInMonth Y1 M1)
    (hM1 : 1 ≤ M1) (hM1' : M1 ≤ 12) (hY1 : 1000 ≤ Y1) (hY1' : Y1 ≤ 9999)
    (hD2 : 1 ≤ D2) (hD2m : D2 ≤ daysInMonth Y2 M2)
    (hM2 : 1 ≤ M2) (hM2' : M2 ≤ 12) (hY2 : 1000 ≤ Y2) (hY2' : Y2 ≤ 9999) :
    parseDateRange ((pad2 D1 ++ "." ++ pad2 M1 ++ "." ++ natStr Y1) ++ " - "
        ++ (pad2 D2 ++ "." ++ pad2 M2 ++ "." ++ natStr Y2)) =
      some (natStr Y1 ++ "-" ++ pad2 M1 ++ "-" ++ pad2 D1,
            natStr Y2 ++ "-" ++ pad2 M2 ++ "-" ++ pad2 D2) := by
  have hd31_1 := daysInMonth_le Y1 M1
  have hd31_2 := daysInMonth_le Y2 M2
  have hc1 := token_chars D1 M1 Y1 (by omega) (by omega) hY1 hY1'
  have hc2 := token_chars D2 M2 Y2 (by omega) (by omega) hY2 hY2'
  set t1 := pad2 D1 ++ "." ++ pad2 M1 ++ "." ++ natStr Y1 with ht1
  set t2 := pad2 D2 ++ "." ++ pad2 M2 ++ "." ++ natStr Y2 with ht2
  have hdata : (t1 ++ " - " ++ t2).data =
      t1.data ++ ' ' :: '-' :: ' ' :: t2.data := by
    rw [String.data_append, String.data_append, sepDash_data]
    simp
  have hv : containsVon (t1 ++ " - " ++ t2).data = false := by
    rw [hdata]
    apply containsVon_eq_false
    intro c hcm
    simp only [List.mem_append, List.mem_cons] at hcm
    rcases hcm with h | h | h | h | h
    · rcases hc1 c h with ⟨k, hk, rfl⟩ | rfl
      · exact (digitChar_facts k hk).2.2.2.1
      · decide
    · subst h; decide
    · subst h; decide
    · subst h; decide
    · rcases hc2 c h with ⟨k, hk, rfl⟩ | rfl
      · exact (digitChar_facts k hk).2.2.2.1
      · decide
  have hnodash1 : ∀ c ∈ t1.data, ¬c = '-' := by
    intro c h
    rcases hc1 c h with ⟨k, hk, rfl⟩ | rfl
    · exact (digitChar_facts k hk).2.2.1
    · decide
  have hnodash2 : ∀ c ∈ t2.data, ¬c = '-' := by
    intro c h
    rcases hc2 c h with ⟨k, hk, rfl⟩ | rfl
    · exact (digitChar_facts k hk).2.2.1
    · decide
  have hsplit : pySplitDash (t1 ++ " - " ++ t2) = [t1, t2] := by
    unfold pySplitDash
    rw [hdata, splitDashAux_append _ _ _ hnodash1,
        splitDashAux_no_sep _ _ hnodash2]
    simp
  simp only [parseDateRange, hv, Bool.false_eq_true, if_false, hsplit,
    List.get?,
    strptime_constructed D1 M1 Y1 hD1 hD1m hM1 hM1' hY1 hY1',
    strptime_constructed D2 M2 Y2 hD2 hD2m hM2 hM2' hY2 hY2']
  rfl

/-- Witness for `c2_double_bound_amended` at the concrete dates
01.06.2024 and 15.06.2024. -/
theorem c2_double_bound_witness :
    parseDateRange ((pad2 1 ++ "." ++ pad2 6 ++ "." ++ natStr 2024) ++ " - "
        ++ (pad2 15 ++ "." ++ pad2 6 ++ "." ++ natStr 2024)) =
      some (natStr 2024 ++ "-" ++ pad2 6 ++ "-" ++ pad2 1,
            natStr 2024 ++ "-" ++ pad2 6 ++ "-" ++ pad2 15) :=
  c2_double_bound_amended 1 6 2024 15 6 2024
    (by decide) (by decide) (by decide) (by decide) (by decide) (by decide)
    (by decide) (by decide) (by decide) (by decide) (by decide) (by decide)

/-- C2 (counterexample): `"01.06.0024 - 15.06.0024"` consists of two valid
`DD.MM.YYYY` tokens around the hyphen delimiter and contains no `"von"`,
yet the parse renders the year `0024` as the unpadded `"24"`, not as the
claimed `"0024-06-01"`/`"0024-06-15"`. -/
theorem c2_year_pad_counterexample :
    containsVon ("01.06.0024 - 15.06.0024").data = false ∧
    strptime_dmY "01.06.0024" = some ⟨24, 6, 1⟩ ∧
    strptime_dmY "15.06.0024" = some ⟨24, 6, 15⟩ ∧
    parseDateRange "01.06.0024 - 15.06.0024" =
      some ("24-06-01", "24-06-15") ∧
    ("24-06-01" : String) ≠ "0024-06-01" := by decide

/-- C3: the date-range parse fails (no record can be built) whenever the
branch taken cannot produce two dates: with the `"von"` marker present,
when the space-split token at index 2 is missing or malformed; without the
marker, when either hyphen-split token at index 0 or 1 is missing or
malformed (this covers marker-less delimiter-less texts and malformed
dates such as month 13). -/
theorem c3_parse_failure (s : String)
    (h : (containsVon s.data = true ∧
            ((pySplitSpace s).get? 2).bind strptime_dmY = none)
       ∨ (containsVon s.data = false ∧
            (((pySplitDash s).get? 0).bind strptime_dmY = none
             ∨ ((pySplitDash s).get? 1).bind strptime_dmY = none))) :
    parseDateRange s = none := by
  unfold parseDateRange
  rcases h with ⟨h1, h2⟩ | ⟨h1, h2⟩
  · rw [if_pos h1]
    cases hg : (pySplitSpace s).get? 2 with
    | none => simp [hg]
    | some t =>
      rw [hg, Option.some_bind] at h2
      simp [hg, h2]
  · rw [if_neg (by simp [h1])]
    rcases h2 with h2 | h2
    · cases hg : (pySplitDash s).get? 0 with
      | none => simp [hg]
      | some t =>
        rw [hg, Option.some_bind] at h2
        simp [hg, h2]
    · cases hg0 : (pySplitDash s).get? 0 with
      | none => simp [hg0]
      | some t0 =>
        cases hs0 : strptime_dmY t0 with
        | none => simp [hg0, hs0]
        | some d0 =>
          cases hg1 : (pySplitDash s).get? 1 with
          | none => simp [hg0, hs0, hg1]
          | some t1 =>
            rw [hg1, Option.some_bind] at h2
            simp [hg0, hs0, hg1, h2]

/-- Witness for `c3_parse_failure` at the month-13 text `"01.13.2024"`. -/
theorem c3_parse_failure_witness : parseDateRange "01.13.2024" = none :=
  c3_parse_failure "01.13.2024" (Or.inr ⟨by decide, Or.inl (by decide)⟩)

/-! ## Per-flyer and per-shop behaviour -/

theorem parseFlyerLoop_records (elems : List FlyerElem) (sn now : String)
    (acc : List FlyerRecord) :
    (parseFlyerLoop elems sn now acc).1 =
      acc ++ elems.filterMap fun e => buildFlyerRecord e sn now := by
  induction elems generalizing acc with
  | nil => simp [parseFlyerLoop]
  | cons e rest ih =>
    simp only [parseFlyerLoop]
    cases hb : buildFlyerRecord e sn now with
    | none =>
      simp only [parse_flyer, hb]
      rw [ih]
      simp [List.filterMap_cons, hb]
    | some r =>
      simp only [parse_flyer, hb]
      rw [ih]
      simp [List.filterMap_cons, hb]

/-- C4: for a shop whose wait located the flyer elements, the records
appended by the per-shop loop are exactly the per-element builder's
successes, in DOM order — each failing element is dropped without
affecting its siblings, and no exception escapes the loop. -/
theorem c4_flyer_isolation (elems : List FlyerElem) (sn now : String)
    (acc : List FlyerRecord) :
    (parse_category_shop (ShopPage.flyers elems) sn now acc).1 =
      some (acc ++ elems.filterMap fun e => buildFlyerRecord e sn now) := by
  simp only [parse_category_shop]
  rw [parseFlyerLoop_records]

/-- C9: on the concrete environment where discovery yields shops
`("/a/", "Alpha")` and `("/b/", "Beta")`, shop `/a/` renders one flyer with
validity `"01.06.2024 - 15.06.2024"` and shop `/b/` times out, a pipeline
run produces exactly one record, for `Alpha`, with the claimed dates and
`parsed_time` equal to the run's timestamp. -/
theorem c9_end_to_end (now : String) :
    (pipelineRun
      ⟨FetchResult.ok (CategoryDoc.dropdown
          [⟨"/a/", "Alpha"⟩, ⟨"/b/", "Beta"⟩]),
       fun p => if p = "/a/" then
          ShopPage.flyers [⟨some "T", some ⟨some "U", none⟩,
            some "01.06.2024 - 15.06.2024"⟩]
        else ShopPage.timeout⟩ now).1 =
      [⟨"T", some "U", "Alpha", "2024-06-01", "2024-06-15", now⟩] := rfl

/-- C10: a flyer element whose `img` child has an absent or empty `src`
and no `data-src` is still appended as a record (no error event), with
`thumbnail` equal to the absent value `none`. -/
theorem c10_missing_thumbnail (t sp sn now : String) (src : Option String)
    (vf vt : String) (acc : List FlyerRecord)
    (hsrc : src = none ∨ src = some "")
    (hparse : parseDateRange (pyStrip sp) = some (vf, vt)) :
    parse_flyer ⟨some t, some ⟨src, none⟩, some sp⟩ sn now acc =
      (acc ++ [⟨pyStrip t, none, sn, vf, vt, now⟩], []) := by
  have hb : buildFlyerRecord ⟨some t, some ⟨src, none⟩, some sp⟩ sn now =
      some ⟨pyStrip t, none, sn, vf, vt, now⟩ := by
    rcases hsrc with rfl | rfl <;> simp [buildFlyerRecord, hparse, pyOr]
  simp [parse_flyer, hb]

/-- Witness for `c10_missing_thumbnail`: an image with no `src` and no
`data-src` still yields a record, with `thumbnail = none`. -/
theorem c10_missing_thumbnail_witness :
    parse_flyer ⟨some "T", some ⟨none, none⟩,
        some "01.06.2024 - 15.06.2024"⟩ "S" "n" [] =
      ([⟨"T", none, "S", "2024-06-01", "2024-06-15", "n"⟩], []) :=
  c10_missing_thumbnail "T" "01.06.2024 - 15.06.2024" "S" "n" none
    "2024-06-01" "2024-06-15" [] (Or.inl rfl) (by decide)

theorem parse_category_shop_none (page : ShopPage) (sn now : String)
    (acc : List FlyerRecord)
    (h : (parse_category_shop page sn now acc).1 = none) :
    page = ShopPage.error := by
  cases page <;> simp_all [parse_category_shop]

theorem shopLoop_timeout_skip (render : String → ShopPage)
    (pre post : List AnchorElem) (a : AnchorElem) (now : String)
    (acc : List FlyerRecord) (h : render a.href = ShopPage.timeout) :
    (shopLoop render (pre ++ a :: post) now acc).2.1 =
      (shopLoop render (pre ++ post) now acc).2.1 := by
  induction pre generalizing acc with
  | nil =>
    simp only [List.nil_append, shopLoop, h, parse_category_shop]
  | cons b rest ih =>
    simp only [List.cons_append, shopLoop]
    cases hb : (parse_category_shop (render b.href) b.text now acc).1 with
    | none => rfl
    | some acc1 => simpa using ih acc1

theorem shopLoop_timeout_warns (render : String → ShopPage)
    (pre post : List AnchorElem) (a : AnchorElem) (now : String)
    (acc : List FlyerRecord) (h : render a.href = ShopPage.timeout)
    (hpre : ∀ b ∈ pre, ¬render b.href = ShopPage.error) :
    Event.logWarning ("Flyers not found for shop " ++ a.text) ∈
      (shopLoop render (pre ++ a :: post) now acc).2.2 := by
  induction pre generalizing acc with
  | nil =>
    simp [shopLoop, h, parse_category_shop]
  | cons b rest ih =>
    have hb' : ¬render b.href = ShopPage.error := hpre b (by simp)
    simp only [List.cons_append, shopLoop]
    cases hb : (parse_category_shop (render b.href) b.text now acc).1 with
    | none => exact absurd (parse_category_shop_none _ _ _ _ hb) hb'
    | some acc1 =>
      have := ih acc1 (fun x hx => hpre x (by simp [hx]))
      simp [this]

theorem pipelineRun_dropdown_records (render : String → ShopPage)
    (links : List AnchorElem) (now : String) :
    (pipelineRun ⟨FetchResult.ok (CategoryDoc.dropdown links), render⟩
        now).1 = (shopLoop render links now []).2.1 := by
  simp only [pipelineRun, parse_flyers_category]
  cases hx : (shopLoop render links now []).1 <;> simp [hx]

/-- C5: for a shop whose wait times out, the per-shop collector returns
without appending a record and with only a warning naming the shop (no
propagated exception), and — provided no earlier shop aborted the loop —
the warning appears in the run's event trace while the run's records equal
those of a run in which the shop was never discovered. -/
theorem c5_shop_timeout (render : String → ShopPage)
    (pre post : List AnchorElem) (a : AnchorElem) (now : String)
    (acc : List FlyerRecord)
    (h : render a.href = ShopPage.timeout)
    (hpre : ∀ b ∈ pre, ¬render b.href = ShopPage.error) :
    parse_category_shop (render a.href) a.text now acc =
      (some acc,
       [Event.logWarning ("Flyers not found for shop " ++ a.text)]) ∧
    (pipelineRun ⟨FetchResult.ok (CategoryDoc.dropdown (pre ++ a :: post)),
        render⟩ now).1 =
      (pipelineRun ⟨FetchResult.ok (CategoryDoc.dropdown (pre ++ post)),
        render⟩ now).1 ∧
    Event.logWarning ("Flyers not found for shop " ++ a.text) ∈
      (pipelineRun ⟨FetchResult.ok (CategoryDoc.dropdown (pre ++ a :: post)),
        render⟩ now).2 := by
  refine ⟨by rw [h]; rfl, ?_, ?_⟩
  · rw [pipelineRun_dropdown_records, pipelineRun_dropdown_records]
    exact shopLoop_timeout_skip render pre post a now [] h
  · have hw := shopLoop_timeout_warns render pre post a now [] h hpre
    simp only [pipelineRun, parse_flyers_category]
    cases hx : (shopLoop render (pre ++ a :: post) now []).1 <;>
      simp [hx, hw]

/-- Witness for `c5_shop_timeout`: one discovered shop whose wait times
out. -/
theorem c5_shop_timeout_witness :
    parse_category_shop ((fun _ => ShopPage.timeout) "/b/") "Beta" "t" [] =
      (some [], [Event.logWarning ("Flyers not found for shop " ++ "Beta")]) ∧
    (pipelineRun ⟨FetchResult.ok (CategoryDoc.dropdown
        ([] ++ ⟨"/b/", "Beta"⟩ :: [])), fun _ => ShopPage.timeout⟩ "t").1 =
      (pipelineRun ⟨FetchResult.ok (CategoryDoc.dropdown ([] ++ [])),
        fun _ => ShopPage.timeout⟩ "t").1 ∧
    Event.logWarning ("Flyers not found for shop " ++ "Beta") ∈
      (pipelineRun ⟨FetchResult.ok (CategoryDoc.dropdown
        ([] ++ ⟨"/b/", "Beta"⟩ :: [])), fun _ => ShopPage.timeout⟩ "t").2 :=
  c5_shop_timeout (fun _ => ShopPage.timeout) [] [] ⟨"/b/", "Beta"⟩ "t" []
    rfl (by simp)

/-- C6 (amended): the shop loop consumes each dropdown anchor exactly
through the pair (link target, visible text as returned by `get_text()`,
untrimmed): running it over the anchors equals running the pair-level loop
over `discoveredShops`. -/
theorem c6_discoverer_amended (render : String → ShopPage)
    (links : List AnchorElem) (now : String) (acc : List FlyerRecord) :
    shopLoop render links now acc =
      shopLoopPairs render (discoveredShops links) now acc := by
  induction links generalizing acc with
  | nil => rfl
  | cons a rest ih =>
    simp only [shopLoop, discoveredShops, List.map_cons, shopLoopPairs]
    cases hb : (parse_category_shop (render a.href) a.text now acc).1 with
    | none => simp [hb]
    | some acc1 =>
      simp only [hb]
      rw [show (discoveredShops rest) = rest.map fun x => (x.href, x.text)
        from rfl] at ih
      rw [← ih acc1]

/-- C6 (counterexample): an anchor whose visible text is `" Alpha "` (with
surrounding whitespace) yields a record whose `shop_name` is the untrimmed
`" Alpha "`, not the trimmed text the claim specifies. -/
theorem c6_name_trim_counterexample :
    (pipelineRun ⟨FetchResult.ok (CategoryDoc.dropdown
        [⟨"/a/", " Alpha "⟩]),
      fun _ => ShopPage.flyers [⟨some "T", some ⟨some "U", none⟩,
        some "01.06.2024 - 15.06.2024"⟩]⟩ "t").1.map
      FlyerRecord.shop_name = [" Alpha "] ∧
    ¬(" Alpha " : String) = pyStrip " Alpha " := by decide

/-! ## Driver lifecycle -/

theorem parse_flyer_events_clean (e : FlyerElem) (sn now : String)
    (acc : List FlyerRecord) :
    Event.acquireDriver ∉ (parse_flyer e sn now acc).2 ∧
    Event.releaseDriver ∉ (parse_flyer e sn now acc).2 := by
  unfold parse_flyer
  cases buildFlyerRecord e sn now <;> simp

theorem parseFlyerLoop_events_clean (elems : List FlyerElem)
    (sn now : String) (acc : List FlyerRecord) :
    Event.acquireDriver ∉ (parseFlyerLoop elems sn now acc).2 ∧
    Event.releaseDriver ∉ (parseFlyerLoop elems sn now acc).2 := by
  induction elems generalizing acc with
  | nil => simp [parseFlyerLoop]
  | cons e rest ih =>
    simp only [parseFlyerLoop, List.mem_append, not_or]
    have h1 := parse_flyer_events_clean e sn now acc
    have h2 := ih (parse_flyer e sn now acc).1
    exact ⟨⟨h1.1, h2.1⟩, ⟨h1.2, h2.2⟩⟩

theorem parse_category_shop_events_clean (page : ShopPage)
    (sn now : String) (acc : List FlyerRecord) :
    Event.acquireDriver ∉ (parse_category_shop page sn now acc).2 ∧
    Event.releaseDriver ∉ (parse_category_shop page sn now acc).2 := by
  cases page with
  | timeout => simp [parse_category_shop]
  | error => simp [parse_category_shop]
  | flyers elems =>
    simp only [parse_category_shop, List.mem_append, not_or]
    have h1 := parseFlyerLoop_events_clean elems sn now acc
    exact ⟨⟨h1.1, by simp⟩, ⟨h1.2, by simp⟩⟩

theorem shopLoop_events_clean (render : String → ShopPage)
    (links : List AnchorElem) (now : String) (acc : List FlyerRecord) :
    Event.acquireDriver ∉ (shopLoop render links now acc).2.2 ∧
    Event.releaseDriver ∉ (shopLoop render links now acc).2.2 := by
  induction links generalizing acc with
  | nil => simp [shopLoop]
  | cons a rest ih =>
    simp only [shopLoop]
    have h1 := parse_category_shop_events_clean (render a.href) a.text now acc
    cases hb : (parse_category_shop (render a.href) a.text now acc).1 with
    | none => exact h1
    | some acc1 =>
      have h2 := ih acc1
      simp only [List.mem_append, not_or]
      exact ⟨⟨h1.1, h2.1⟩, ⟨h1.2, h2.2⟩⟩

/-- C7: on every execution path — transport failure, discovery failure,
an exception aborting collection, or normal completion — the run's event
trace acquires the driver exactly once (at the start) and releases it
exactly once, immediately before the final completion log. -/
theorem c7_driver_lifecycle (inp : PipelineInput) (now : String) :
    ∃ mid : List Event,
      (pipelineRun inp now).2 =
        Event.acquireDriver :: mid ++
          [Event.releaseDriver, Event.logInfo "Parsing completed"] ∧
      Event.acquireDriver ∉ mid ∧ Event.releaseDriver ∉ mid := by
  obtain ⟨fetch, render⟩ := inp
  cases fetch with
  | requestError =>
    exact ⟨[Event.logError "Parsing failed: unable to get webpage"],
      rfl, by simp, by simp⟩
  | ok doc =>
    cases doc with
    | noAnchor =>
      exact ⟨[Event.logInfo "Website has been successfully parsed",
        Event.logError "Error occured"], rfl, by simp, by simp⟩
    | anchorNoSibling =>
      exact ⟨[Event.logInfo "Website has been successfully parsed",
        Event.logError "Error occured"], rfl, by simp, by simp⟩
    | dropdown links =>
      have hcl := shopLoop_events_clean render links now []
      cases hx : (shopLoop render links now []).1 with
      | none =>
        refine ⟨Event.logInfo "Website has been successfully parsed" ::
          (shopLoop render links now []).2.2 ++
            [Event.logError "Error occured"], ?_, ?_, ?_⟩
        · simp [pipelineRun, parse_flyers_category, hx]
        · simp [hcl.1]
        · simp [hcl.2]
      | some u =>
        refine ⟨Event.logInfo "Website has been successfully parsed" ::
          (shopLoop render links now []).2.2, ?_, ?_, ?_⟩
        · simp [pipelineRun, parse_flyers_category, hx]
        · simp [hcl.1]
        · simp [hcl.2]

/-! ## Ranges guaranteed by the date parser -/

theorem matchDay_range (l : List Char) (n : Nat) (h : matchDay l = some n) :
    1 ≤ n ∧ n ≤ 31 := by
  have e0 : digitVal '0' = 0 := rfl
  have e1 : digitVal '1' = 1 := rfl
  have e2 : digitVal '2' = 2 := rfl
  have e3 : digitVal '3' = 3 := rfl
  match l with
  | [] => simp [matchDay] at h
  | [c] =>
    have ec : digitVal c = c.toNat - 48 := rfl
    simp only [matchDay] at h
    split at h
    · rename_i hc
      simp only [Bool.and_eq_true, decide_eq_true_eq] at hc
      have l1 : (49 : Nat) ≤ c.toNat := hc.1
      have l2 : c.toNat ≤ 57 := hc.2
      injection h with h'
      omega
    · exact absurd h (by simp)
  | [a, b] =>
    have ea : digitVal a = a.toNat - 48 := rfl
    have eb : digitVal b = b.toNat - 48 := rfl
    simp only [matchDay] at h
    split at h
    · rename_i hc
      simp only [Bool.and_eq_true, Bool.or_eq_true, decide_eq_true_eq] at hc
      injection h with h'
      rcases hc.2 with rfl | rfl <;> omega
    · split at h
      · rename_i hc
        simp only [Bool.and_eq_true, Bool.or_eq_true, decide_eq_true_eq]
          at hc
        injection h with h'
        have hb : 48 ≤ b.toNat ∧ b.toNat ≤ 57 := by
          have hdig := hc.2
          simp [Char.isDigit] at hdig
          exact ⟨hdig.1, hdig.2⟩
        rcases hc.1 with rfl | rfl <;> omega
      · split at h
        · rename_i hc
          simp only [Bool.and_eq_true, decide_eq_true_eq] at hc
          injection h with h'
          have l1 : (49 : Nat) ≤ b.toNat := hc.2.1
          have l2 : b.toNat ≤ 57 := hc.2.2
          omega
        · split at h
          · rename_i hc
            simp only [Bool.and_eq_true, decide_eq_true_eq] at hc
            injection h with h'
            have l1 : (49 : Nat) ≤ b.toNat := hc.2.1
            have l2 : b.toNat ≤ 57 := hc.2.2
            omega
          · exact absurd h (by simp)
  | _ :: _ :: _ :: _ => simp [matchDay] at h

theorem matchMonth_range (l : List Char) (n : Nat)
    (h : matchMonth l = some n) : 1 ≤ n ∧ n ≤ 12 := by
  match l with
  | [] => simp [matchMonth] at h
  | [c] =>
    have ec : digitVal c = c.toNat - 48 := rfl
    simp only [matchMonth] at h
    split at h
    · rename_i hc
      simp only [Bool.and_eq_true, decide_eq_true_eq] at hc
      have l1 : (49 : Nat) ≤ c.toNat := hc.1
      have l2 : c.toNat ≤ 57 := hc.2
      injection h with h'
      omega
    · exact absurd h (by simp)
  | [a, b] =>
    have eb : digitVal b = b.toNat - 48 := rfl
    simp only [matchMonth] at h
    split at h
    · rename_i hc
      simp only [Bool.and_eq_true, decide_eq_true_eq] at hc
      injection h with h'
      have l1 : (48 : Nat) ≤ b.toNat := hc.2.1
      have l2 : b.toNat ≤ 50 := hc.2.2
      omega
    · split at h
      · rename_i hc
        simp only [Bool.and_eq_true, decide_eq_true_eq] at hc
        injection h with h'
        have l1 : (49 : Nat) ≤ b.toNat := hc.2.1
        have l2 : b.toNat ≤ 57 := hc.2.2
        omega
      · exact absurd h (by simp)
  | _ :: _ :: _ :: _ => simp [matchMonth] at h

theorem matchYear_le (l : List Char) (n : Nat) (h : matchYear l = some n) :
    n ≤ 9999 := by
  match l with
  | [a, b, c, d] =>
    have ea : digitVal a = a.toNat - 48 := rfl
    have eb : digitVal b = b.toNat - 48 := rfl
    have ec : digitVal c = c.toNat - 48 := rfl
    have ed : digitVal d = d.toNat - 48 := rfl
    simp only [matchYear] at h
    split at h
    · rename_i hc
      simp only [Bool.and_eq_true] at hc
      injection h with h'
      have ba : 48 ≤ a.toNat ∧ a.toNat ≤ 57 := by
        have hdig := hc.1.1.1
        simp [Char.isDigit] at hdig
        exact ⟨hdig.1, hdig.2⟩
      have bb : 48 ≤ b.toNat ∧ b.toNat ≤ 57 := by
        have hdig := hc.1.1.2
        simp [Char.isDigit] at hdig
        exact ⟨hdig.1, hdig.2⟩
      have bc : 48 ≤ c.toNat ∧ c.toNat ≤ 57 := by
        have hdig := hc.1.2
        simp [Char.isDigit] at hdig
        exact ⟨hdig.1, hdig.2⟩
      have bd : 48 ≤ d.toNat ∧ d.toNat ≤ 57 := by
        have hdig := hc.2
        simp [Char.isDigit] at hdig
        exact ⟨hdig.1, hdig.2⟩
      omega
    · exact absurd h (by simp)
  | [] => simp [matchYear] at h
  | [_] => simp [matchYear] at h
  | [_, _] => simp [matchYear] at h
  | [_, _, _] => simp [matchYear] at h
  | _ :: _ :: _ :: _ :: _ :: _ => simp [matchYear] at h

theorem strptime_bounds (s : String) (dt : Date)
    (h : strptime_dmY s = some dt) : dateInRange dt := by
  unfold strptime_dmY at h
  rcases hsp : splitCharAux '.' s.data [] with _ | ⟨dp, _ | ⟨mp, _ |
    ⟨yp, _ | ⟨z, rest⟩⟩⟩⟩ <;> rw [hsp] at h
  · simp at h
  · simp at h
  · simp at h
  · have h2 : (match matchDay dp, matchMonth mp, matchYear yp with
        | some d, some m, some y =>
          if 1 ≤ y && d ≤ daysInMonth y m then
            some (⟨y, m, d⟩ : Date)
          else none
        | _, _, _ => none) = some dt := h
    clear h
    cases hd : matchDay dp with
    | none => rw [hd] at h2; simp at h2
    | some d =>
      cases hm : matchMonth mp with
      | none => rw [hd, hm] at h2; simp at h2
      | some m =>
        cases hy : matchYear yp with
        | none => rw [hd, hm, hy] at h2; simp at h2
        | some y =>
          rw [hd, hm, hy] at h2
          have h : (if 1 ≤ y && d ≤ daysInMonth y m then
              some (⟨y, m, d⟩ : Date) else none) = some dt := h2
          clear h2
          split at h
          · rename_i hc
            simp only [Bool.and_eq_true, decide_eq_true_eq] at hc
            injection h with h'
            subst h'
            obtain ⟨hd1, _⟩ := matchDay_range dp d hd
            obtain ⟨hm1, hm2⟩ := matchMonth_range mp m hm
            have hy2 := matchYear_le yp y hy
            exact ⟨hc.1, hy2, hm1, hm2, hd1, hc.2⟩
          · exact absurd h (by simp)
  · simp at h

/-! ## Validity of the rendered ISO string -/

theorem pad2_eq (n : Nat) (h : n < 100) :
    pad2 n = ⟨[digitChar (n / 10), digitChar (n % 10)]⟩ := by
  conv_lhs => rw [show n = 10 * (n / 10) + n % 10 from by omega]
  exact pad2_digits _ _ (by omega) (by omega)

theorem natStr_eq4 (n : Nat) (h : 1000 ≤ n) (h' : n ≤ 9999) :
    natStr n = ⟨[digitChar (n / 1000), digitChar (n / 100 % 10),
      digitChar (n / 10 % 10), digitChar (n % 10)]⟩ := by
  conv_lhs => rw [show n = 1000 * (n / 1000) + 100 * (n / 100 % 10)
    + 10 * (n / 10 % 10) + n % 10 from by omega]
  exact natStr_digits4 _ _ _ _ (by omega) (by omega) (by omega) (by omega)
    (by omega)

theorem listVal_two (v1 v0 : Nat) (h1 : v1 < 10) (h0 : v0 < 10) :
    listVal [digitChar v1, digitChar v0] = 10 * v1 + v0 := by
  simp only [listVal, List.foldl, (digitChar_facts v1 h1).2.2.2.2,
    (digitChar_facts v0 h0).2.2.2.2]
  omega

theorem listVal_four (v3 v2 v1 v0 : Nat) (h3 : v3 < 10) (h2 : v2 < 10)
    (h1 : v1 < 10) (h0 : v0 < 10) :
    listVal [digitChar v3, digitChar v2, digitChar v1, digitChar v0] =
      1000 * v3 + 100 * v2 + 10 * v1 + v0 := by
  simp only [listVal, List.foldl, (digitChar_facts v3 h3).2.2.2.2,
    (digitChar_facts v2 h2).2.2.2.2, (digitChar_facts v1 h1).2.2.2.2,
    (digitChar_facts v0 h0).2.2.2.2]
  omega

theorem strftimeISO_valid (y m d : Nat) (hy : 1000 ≤ y) (hy' : y ≤ 9999)
    (hm : 1 ≤ m) (hm' : m ≤ 12) (hd : 1 ≤ d)
    (hd' : d ≤ daysInMonth y m) :
    isValidISODate (strftimeISO ⟨y, m, d⟩) = true := by
  have hd31 := daysInMonth_le y m
  have hnd : ∀ k : Nat, k < 10 → ¬digitChar k = '-' :=
    fun k hk => (digitChar_facts k hk).2.2.1
  have hdig : ∀ k : Nat, k < 10 → (digitChar k).isDigit = true :=
    fun k hk => (digitChar_facts k hk).1
  have hdata : (strftimeISO ⟨y, m, d⟩).data =
      [digitChar (y / 1000), digitChar (y / 100 % 10),
       digitChar (y / 10 % 10), digitChar (y % 10)] ++ '-' ::
        ([digitChar (m / 10), digitChar (m % 10)] ++ '-' ::
          [digitChar (d / 10), digitChar (d % 10)]) := by
    show (natStr y ++ "-" ++ pad2 m ++ "-" ++ pad2 d).data = _
    rw [natStr_eq4 y hy hy', pad2_eq m (by omega), pad2_eq d (by omega)]
    rfl
  unfold isValidISODate
  rw [hdata]
  rw [splitCharAux_append '-' _ _ []
    (by intro c hc
        simp only [List.mem_cons, List.not_mem_nil, or_false] at hc
        rcases hc with rfl | rfl | rfl | rfl
        · exact hnd _ (by omega)
        · exact hnd _ (by omega)
        · exact hnd _ (by omega)
        · exact hnd _ (by omega))]
  rw [splitCharAux_append '-' _ _ []
    (by intro c hc
        simp only [List.mem_cons, List.not_mem_nil, or_false] at hc
        rcases hc with rfl | rfl
        · exact hnd _ (by omega)
        · exact hnd _ (by omega))]
  rw [splitCharAux_no_sep '-' _ []
    (by intro c hc
        simp only [List.mem_cons, List.not_mem_nil, or_false] at hc
        rcases hc with rfl | rfl
        · exact hnd _ (by omega)
        · exact hnd _ (by omega))]
  simp only [List.reverse_nil, List.nil_append]
  simp only [listVal_four (y / 1000) (y / 100 % 10) (y / 10 % 10) (y % 10)
      (by omega) (by omega) (by omega) (by omega),
    listVal_two (m / 10) (m % 10) (by omega) (by omega),
    listVal_two (d / 10) (d % 10) (by omega) (by omega),
    show 1000 * (y / 1000) + 100 * (y / 100 % 10) + 10 * (y / 10 % 10)
      + y % 10 = y from by omega,
    show 10 * (m / 10) + m % 10 = m from by omega,
    show 10 * (d / 10) + d % 10 = d from by omega]
  have hy1 : (1 : Nat) ≤ y := by omega
  simp [hdig _ (show y / 1000 < 10 by omega),
    hdig _ (show y / 100 % 10 < 10 by omega),
    hdig _ (show y / 10 % 10 < 10 by omega),
    hdig _ (show y % 10 < 10 by omega),
    hdig _ (show m / 10 < 10 by omega),
    hdig _ (show m % 10 < 10 by omega),
    hdig _ (show d / 10 < 10 by omega),
    hdig _ (show d % 10 < 10 by omega),
    hy1, hm, hm', hd, hd']

theorem parseDateRange_validFrom (s vf vt : String)
    (h : parseDateRange s = some (vf, vt)) :
    ∃ dt : Date, dateInRange dt ∧ vf = strftimeISO dt := by
  unfold parseDateRange at h
  split at h
  · cases hg : (pySplitSpace s).get? 2 with
    | none => simp only [hg] at h; simp at h
    | some t =>
      cases hp : strptime_dmY t with
      | none => simp only [hg, hp] at h; simp at h
      | some d =>
        simp only [hg, hp, Option.some.injEq, Prod.mk.injEq] at h
        exact ⟨d, strptime_bounds t d hp, h.1.symm⟩
  · cases hg0 : (pySplitDash s).get? 0 with
    | none => simp only [hg0] at h; simp at h
    | some t0 =>
      cases hp0 : strptime_dmY t0 with
      | none => simp only [hg0, hp0] at h; simp at h
      | some d0 =>
        cases hg1 : (pySplitDash s).get? 1 with
        | none => simp only [hg0, hp0, hg1] at h; simp at h
        | some t1 =>
          cases hp1 : strptime_dmY t1 with
          | none => simp only [hg0, hp0, hg1, hp1] at h; simp at h
          | some d1 =>
            simp only [hg0, hp0, hg1, hp1, Option.some.injEq,
              Prod.mk.injEq] at h
            exact ⟨d0, strptime_bounds t0 d0 hp0, h.1.symm⟩

theorem buildFlyerRecord_validFrom (f : FlyerElem) (sn now : String)
    (r : FlyerRecord) (h : buildFlyerRecord f sn now = some r) :
    ∃ dt : Date, dateInRange dt ∧ r.valid_from = strftimeISO dt := by
  obtain ⟨oh2, oimg, ospan⟩ := f
  cases oh2 with
  | none => simp [buildFlyerRecord] at h
  | some t =>
    cases oimg with
    | none => simp [buildFlyerRecord] at h
    | some img =>
      cases ospan with
      | none => simp [buildFlyerRecord] at h
      | some sp =>
        simp only [buildFlyerRecord] at h
        cases hp : parseDateRange (pyStrip sp) with
        | none => rw [hp] at h; simp at h
        | some p =>
          obtain ⟨vf, vt⟩ := p
          rw [hp] at h
          simp only [Option.some.injEq] at h
          obtain ⟨dt, hb, he⟩ := parseDateRange_validFrom (pyStrip sp) vf vt
            hp
          refine ⟨dt, hb, ?_⟩
          rw [← h]
          exact he

theorem parse_category_shop_appended (page : ShopPage) (sn now : String)
    (acc acc1 : List FlyerRecord)
    (h : (parse_category_shop page sn now acc).1 = some acc1) :
    ∀ r ∈ acc1, r ∈ acc ∨
      ∃ e : FlyerElem, buildFlyerRecord e sn now = some r := by
  cases page with
  | timeout =>
    simp only [parse_category_shop, Option.some.injEq] at h
    subst h
    exact fun r hr => Or.inl hr
  | error => simp [parse_category_shop] at h
  | flyers elems =>
    simp only [parse_category_shop, Option.some.injEq] at h
    subst h
    intro r hr
    rw [parseFlyerLoop_records] at hr
    rcases List.mem_append.mp hr with hmem | hmem
    · exact Or.inl hmem
    · obtain ⟨e, _, hbe⟩ := List.mem_filterMap.mp hmem
      exact Or.inr ⟨e, hbe⟩

theorem shopLoop_validFrom (render : String → ShopPage)
    (links : List AnchorElem) (now : String) (acc : List FlyerRecord)
    (hacc : ∀ r ∈ acc,
      ∃ dt : Date, dateInRange dt ∧ r.valid_from = strftimeISO dt) :
    ∀ r ∈ (shopLoop render links now acc).2.1,
      ∃ dt : Date, dateInRange dt ∧ r.valid_from = strftimeISO dt := by
  induction links generalizing acc with
  | nil => simpa [shopLoop] using hacc
  | cons a rest ih =>
    simp only [shopLoop]
    cases hb : (parse_category_shop (render a.href) a.text now acc).1 with
    | none => simpa using hacc
    | some acc1 =>
      simp only []
      apply ih acc1
      intro r hr
      rcases parse_category_shop_appended _ _ _ _ _ hb r hr with hmem |
        ⟨e, hbe⟩
      · exact hacc r hmem
      · exact buildFlyerRecord_validFrom e a.text now r hbe

/-- C8 (amended): every record the pipeline appends carries a `valid_from`
rendered by `strftime("%Y-%m-%d")` from a `strptime`-validated calendar
date, and whenever that date's year is at least 1000 the string is a
syntactically valid ISO `YYYY-MM-DD` calendar date (years below 1000 are
rendered without leading zeros, so the unconditional claim fails — see the
counterexample). -/
theorem c8_valid_from_invariant (inp : PipelineInput) (now : String)
    (r : FlyerRecord) (hr : r ∈ (pipelineRun inp now).1) :
    ∃ dt : Date, dateInRange dt ∧ r.valid_from = strftimeISO dt ∧
      (1000 ≤ dt.year → isValidISODate r.valid_from = true) := by
  obtain ⟨fetch, render⟩ := inp
  cases fetch with
  | requestError => simp [pipelineRun, parse_flyers_category] at hr
  | ok doc =>
    cases doc with
    | noAnchor => simp [pipelineRun, parse_flyers_category] at hr
    | anchorNoSibling => simp [pipelineRun, parse_flyers_category] at hr
    | dropdown links =>
      rw [pipelineRun_dropdown_records] at hr
      obtain ⟨dt, hbounds, he⟩ :=
        shopLoop_validFrom render links now [] (by simp) r hr
      refine ⟨dt, hbounds, he, fun hy => ?_⟩
      rw [he]
      obtain ⟨b1, b2, b3, b4, b5, b6⟩ := hbounds
      exact strftimeISO_valid dt.year dt.month dt.day hy b2 b3 b4 b5 b6

/-- Witness for `c8_valid_from_invariant` at a concrete one-shop run whose
single record has `valid_from = "2024-06-01"`. -/
theorem c8_valid_from_witness :
    ∃ dt : Date, dateInRange dt ∧
      (⟨"T", some "U", "A", "2024-06-01", "2024-06-15", "t"⟩ :
        FlyerRecord).valid_from = strftimeISO dt ∧
      (1000 ≤ dt.year →
        isValidISODate (⟨"T", some "U", "A", "2024-06-01", "2024-06-15",
          "t"⟩ : FlyerRecord).valid_from = true) :=
  c8_valid_from_invariant
    ⟨FetchResult.ok (CategoryDoc.dropdown [⟨"/a/", "A"⟩]),
     fun _ => ShopPage.flyers [⟨some "T", some ⟨some "U", none⟩,
       some "01.06.2024 - 15.06.2024"⟩]⟩ "t"
    ⟨"T", some "U", "A", "2024-06-01", "2024-06-15", "t"⟩ (by decide)

/-- C8 (counterexample): a flyer with validity
`"01.06.0024 - 15.06.0024"` is appended with
`valid_from = "24-06-01"`, which is not a syntactically valid ISO
`YYYY-MM-DD` date (the year is rendered unpadded). -/
theorem c8_iso_counterexample :
    (pipelineRun ⟨FetchResult.ok (CategoryDoc.dropdown [⟨"/a/", "A"⟩]),
        fun _ => ShopPage.flyers [⟨some "T", some ⟨some "U", none⟩,
          some "01.06.0024 - 15.06.0024"⟩]⟩ "t").1.map
      FlyerRecord.valid_from = ["24-06-01"] ∧
    isValidISODate "24-06-01" = false ∧
    isValidISODate "2024-06-01" = true := by decide
